import Mathlib

/-!
Verification of the reboot-aware update loop of
`lib/ansible/plugins/action/win_updates.py` (class `ActionModule`).

The Python code is shallowly embedded:
- a module/plugin result dict is a structure of `Option` fields (an absent
  key is `none`); a direct subscript `result['k']` is a fallible read
  (`KeyError` when absent), while `result.get('k', d)` is `Option.getD`;
- a Python dict used as a mapping (`updates`, `filtered_updates`) is an
  insertion-ordered association list `List (String × V)`; `d.copy()` +
  `d.update(new)` (the body of `_merge_dict`) is modelled by `dictUpdate`,
  which assigns each pair of `new` in order (replacing in place when the
  key is present, appending otherwise);
- the external worker (`_run_win_updates`) and the reboot coordinator
  (`_reboot_server`) are synchronous calls whose outcomes are supplied as
  input lists consumed one per invocation; running out of supplied
  outcomes is a model-level error distinct from any program behaviour;
- `AnsibleError` raised and caught is `Except.error` with the message.

The loop additionally returns ghost trace data (`cycles`: the worker
results consumed inside the loop, in order, and `rebootsRun`: how many
times `_reboot_server` was invoked).  The trace does not influence any
control flow; it only records what happened so that aggregate claims can
be stated.
-/

namespace WinUpdates

/-- A Python result dict (worker or aggregate): every key optional. -/
structure RawResult where
  changed : Option Bool
  updates : Option (List (String × String))
  filtered_updates : Option (List (String × String))
  found_update_count : Option Int
  installed_update_count : Option Int
  reboot_required : Option Bool
  failed : Option Bool
  msg : Option String
  deriving DecidableEq

/-- Look up a key in a Python-dict association list (first entry wins,
as Python dicts have unique keys). -/
def dictGet {V : Type} (d : List (String × V)) (k : String) : Option V :=
  (d.find? (fun p => decide (p.1 = k))).map Prod.snd

/-- Python `d[k] = v` on an insertion-ordered dict: replace in place when
the key is present, append otherwise. -/
def dictSet {V : Type} (d : List (String × V)) (k : String) (v : V) :
    List (String × V) :=
  if (dictGet d k).isSome then
    d.map (fun p => if p.1 = k then (k, v) else p)
  else d ++ [(k, v)]

/-- Python `d.update(new)`: assign every pair of `new`, in order. -/
def dictUpdate {V : Type} (d new : List (String × V)) : List (String × V) :=
  new.foldl (fun acc p => dictSet acc p.1 p.2) d

/-- `ActionModule._merge_dict`: `dict_var = original.copy();
dict_var.update(new); return dict_var`. -/
def merge_dict {V : Type} (original new : List (String × V)) :
    List (String × V) :=
  dictUpdate original new

/-- The aggregate locals of `run`: `changed`, `updates`,
`filtered_updates`, `found_update_count`, `installed_update_count`. -/
structure AggState where
  changed : Bool
  updates : List (String × String)
  filtered : List (String × String)
  found : Int
  installed : Int
  deriving DecidableEq

/-- Seeding of the aggregate locals from the first worker result
(lines 189-193); `ch` is `result['changed']`, already read. -/
def initAgg (first : RawResult) (ch : Bool) : AggState :=
  { changed := ch,
    updates := first.updates.getD [],
    filtered := first.filtered_updates.getD [],
    found := first.found_update_count.getD 0,
    installed := first.installed_update_count.getD 0 }

/-- The while condition (lines 199-201):
`result['installed_update_count'] > 0 or result['found_update_count'] > 0
or result['reboot_required'] is True`.  Direct subscripts: a missing key
raises `KeyError`; Python `or` short-circuits. -/
def loopCond (r : RawResult) : Except String Bool :=
  match r.installed_update_count with
  | none => .error "KeyError: installed_update_count"
  | some inst =>
    if inst > 0 then .ok true
    else
      match r.found_update_count with
      | none => .error "KeyError: found_update_count"
      | some found =>
        if found > 0 then .ok true
        else
          match r.reboot_required with
          | none => .error "KeyError: reboot_required"
          | some rb => .ok rb

/-- The sentinel message checked at lines 216-217. -/
def sentinelMsg : String :=
  "A reboot is required before more updates can be installed"

/-- The reboot reason composed at lines 214-224: the sentinel message
selects one text, otherwise the finalise text is used. -/
def rebootReason (r : RawResult) : String :=
  if r.msg.getD "" == sentinelMsg then
    "reboot was required before more updates can be installed"
  else "reboot was required to finalise update install"

/-- The failure message composed at lines 230-232. -/
def rebootFailMsg (reason exc : String) : String :=
  "Failed to reboot remote host when " ++ reason ++ ": " ++ exc

/-- Lines 214-233: decide whether a reboot is due and run it.
`reboots` supplies the outcome of each `_reboot_server` call
(`Except.error e` models a raised `AnsibleError e`).
Returns `inl (result, agg)` when the `except` branch breaks the loop,
and `inr (agg, remaining reboot outcomes, reboots invoked)` otherwise. -/
def stepReboot (result : RawResult) (st : AggState)
    (reboots : List (Except String Unit)) :
    Except String
      (Sum (RawResult × AggState)
        (AggState × List (Except String Unit) × Nat)) :=
  if result.reboot_required.getD false then
    let st1 := { st with changed := true }
    match reboots with
    | [] => .error "model: reboot outcome exhausted"
    | .error e :: _ =>
      .ok (.inl
        ({ result with
            failed := some true,
            msg := some (rebootFailMsg (rebootReason result) e) }, st1))
    | .ok _ :: rest => .ok (.inr (st1, rest, 1))
  else .ok (.inr (st, reboots, 0))

/-- Lines 239-247: merge one new worker result into the aggregate locals.
`ch` is `result['changed']` of the new result (already read). -/
def mergeStep (st : AggState) (w : RawResult) (ch : Bool) : AggState :=
  { changed := st.changed || ch,
    updates := merge_dict st.updates (w.updates.getD []),
    filtered := merge_dict st.filtered (w.filtered_updates.getD []),
    found := st.found + w.found_update_count.getD 0,
    installed := st.installed + w.installed_update_count.getD 0 }

/-- Result of the while loop plus ghost trace data. -/
structure LoopOut where
  result : RawResult
  agg : AggState
  cycles : List RawResult
  rebootsRun : Nat
  deriving DecidableEq

/-- The while loop of `run` (lines 198-247).  `prevErr` is
`previously_errored`, `result` the current result dict, `st` the
aggregate locals, `reboots` the outcomes of successive `_reboot_server`
calls, `workers` the results of successive `_run_win_updates` calls. -/
def runLoop : Bool → RawResult → AggState → List (Except String Unit) →
    List RawResult → Except String LoopOut
  | prevErr, result, st, reboots, workers =>
    match loopCond result with
    | .error e => .error e
    | .ok false => .ok ⟨result, st, [], 0⟩
    | .ok true =>
      if result.failed.getD false && prevErr then
        .ok ⟨result, st, [], 0⟩
      else
        match stepReboot result st reboots with
        | .error e => .error e
        | .ok (.inl (finRes, finSt)) => .ok ⟨finRes, finSt, [], 1⟩
        | .ok (.inr (st1, reboots1, n)) =>
          match workers with
          | [] => .error "model: worker result exhausted"
          | newResult :: rest =>
            match newResult.changed with
            | none => .error "KeyError: changed"
            | some ch =>
              match runLoop (result.failed.getD false) newResult
                  (mergeStep st1 newResult ch) reboots1 rest with
              | .error e => .error e
              | .ok out =>
                .ok ⟨out.result, out.agg, newResult :: out.cycles,
                  n + out.rebootsRun⟩

/-- Lines 251-256: write the aggregate locals back into the result dict
(only when not in async mode). -/
def writeBack (r : RawResult) (st : AggState) : RawResult :=
  { r with
    changed := some st.changed,
    updates := some st.updates,
    filtered_updates := some st.filtered,
    found_update_count := some st.found,
    installed_update_count := some st.installed }

/-- Lines 187-258 of `run`, from the first `_run_win_updates` call to the
returned dict: seed the aggregates, run the reboot loop when
`reboot and state == 'installed' and not check_mode`, then write the
aggregates back when `async_val == 0`. -/
def runUpdates (first : RawResult) (workers : List RawResult)
    (reboots : List (Except String Unit)) (reboot : Bool) (state : String)
    (checkMode : Bool) (asyncVal : Nat) : Except String RawResult :=
  match first.changed with
  | none => .error "KeyError: changed"
  | some ch =>
    let st0 := initAgg first ch
    let loopRes :=
      if reboot && state == "installed" && !checkMode then
        runLoop false first st0 reboots workers
      else .ok ⟨first, st0, [], 0⟩
    match loopRes with
    | .error e => .error e
    | .ok out =>
      if asyncVal == 0 then .ok (writeBack out.result out.agg)
      else .ok out.result

/-! ### `_reboot_server` and the elevated busy probe -/

/-- The fields of the play context touched or observable around the busy
probe: the three elevation fields saved and restored at lines 75-96, plus
representative unrelated fields to state the frame property. -/
structure PlayContext where
  become : Option Bool
  become_method : String
  become_user : Option String
  check_mode : Bool
  remote_user : String
  deriving DecidableEq

/-- Lines 75-96: the `win_shell` busy probe.  The original
`become`/`become_method`/`become_user` are saved; `become` is forced on
when it was `None`/`False`, the method is forced to `runas` when it was
not already, and `become_user` is unconditionally forced to `SYSTEM`
(the source condition `orig_become_user is None or 'root'` is always
truthy).  The probe outcome `probe` is only logged - the `except` clause
swallows it - and the `finally` clause restores all three saved fields.
Returns the play context after the whole block. -/
def busyProbe (ctx : PlayContext) (probe : Except String String) :
    PlayContext :=
  let origB := ctx.become
  let origM := ctx.become_method
  let origU := ctx.become_user
  let ctx1 :=
    if origB = none ∨ origB = some false then { ctx with become := some true }
    else ctx
  let ctx2 :=
    if origM ≠ "runas" then { ctx1 with become_method := "runas" } else ctx1
  let ctx3 := { ctx2 with become_user := some "SYSTEM" }
  let _ := probe
  { ctx3 with become := origB, become_method := origM, become_user := origU }

/-- A result dict of the `win_reboot` / `wait_for_connection` action
plugins: `failed` read with `.get(…, False)`, `msg` by direct subscript. -/
structure PrimResult where
  failed : Option Bool
  msg : Option String
  deriving DecidableEq

/-- `_reboot_server` (lines 51-104): raise the reboot plugin failure,
else run the busy probe (outcome swallowed), then raise the
connectivity-wait failure; success otherwise.  Returns the raised or ok
outcome together with the play context after the call. -/
def reboot_server (ctx : PlayContext) (rebootRes : PrimResult)
    (probe : Except String String) (waitRes : PrimResult) :
    Except String Unit × PlayContext :=
  if rebootRes.failed.getD false then
    (match rebootRes.msg with
     | none => .error "KeyError: msg"
     | some m => .error m, ctx)
  else
    let ctx1 := busyProbe ctx probe
    if waitRes.failed.getD false then
      (match waitRes.msg with
       | none => .error "KeyError: msg"
       | some m => .error m, ctx1)
    else (.ok (), ctx1)

/-! ### `category_names` handling (lines 23-41 and 139-145)

Python strings are embedded as `List Char` so that `str.split(",")` and
`str.strip()` are explicit recursive functions. -/

/-- A Python string as a list of characters. -/
abbrev PyStr := List Char

/-- Python `s.split(sep)` for a one-character separator: always returns
at least one (possibly empty) piece. -/
def pySplitOn (sep : Char) : PyStr → List PyStr
  | [] => [[]]
  | c :: rest =>
    match pySplitOn sep rest with
    | [] => [[]]
    | g :: gs => if c = sep then [] :: g :: gs else (c :: g) :: gs

/-- The whitespace characters removed by Python `str.strip()`. -/
def pyIsSpace (c : Char) : Bool :=
  c = ' ' || c = '\t' || c = '\n' || c = '\r' ||
    c = Char.ofNat 11 || c = Char.ofNat 12

/-- Python `s.lstrip()`. -/
def pyLStrip (s : PyStr) : PyStr := s.dropWhile pyIsSpace

/-- Python `s.strip()`: drop trailing then leading whitespace. -/
def pyStrip (s : PyStr) : PyStr := pyLStrip (pyLStrip s.reverse).reverse

/-- The `valid_categories` list of `_validate_categories`. -/
def valid_categories : List String :=
  ["Application", "Connectors", "CriticalUpdates", "DefinitionUpdates",
   "DeveloperKits", "FeaturePacks", "Guidance", "SecurityUpdates",
   "ServicePacks", "Tools", "UpdateRollups", "Updates"]

/-- `valid_categories` as embedded Python strings. -/
def validCategoryChars : List PyStr := valid_categories.map String.toList

/-- The `AnsibleError` message raised at lines 40-41. -/
def unknownCategoryMsg (n : PyStr) : String :=
  "Unknown category_name " ++ String.mk n ++ ", must be one of (" ++
    String.intercalate "," valid_categories ++ ")"

/-- `_validate_categories` (lines 23-41): raise on the first name not in
`valid_categories`, succeed otherwise. -/
def validate_categories (names : List PyStr) : Except String Unit :=
  match names.find? (fun n => decide (n ∉ validCategoryChars)) with
  | some n => .error (unknownCategoryMsg n)
  | none => .ok ()

/-- Lines 144-145: a `category_names` supplied as a YAML string is split
on commas and each piece stripped. -/
def category_names_of_string (s : PyStr) : List PyStr :=
  (pySplitOn ',' s).map pyStrip

/-- Lines 139-145: the `category_names` argument is either a YAML string
(`inl`, converted by splitting and stripping) or already a list (`inr`,
used as is). -/
def category_names_arg (arg : Sum PyStr (List PyStr)) : List PyStr :=
  match arg with
  | .inl s => category_names_of_string s
  | .inr l => l

/-- The comma-separated string formed from a list of pieces (the
spec-side construction used to state the string/list equivalence). -/
def joinComma : List PyStr → PyStr
  | [] => []
  | [x] => x
  | x :: y :: rest => x ++ ',' :: joinComma (y :: rest)

/-! ### Concrete worker results used in counterexamples and witnesses -/

/-- A worker result carrying only `changed` - every optional field
absent. -/
def resMissingCounts : RawResult :=
  ⟨some false, none, none, none, none, none, none, none⟩

/-- Cycle 1 of the spec example: 5 found, 0 installed, reboot needed. -/
def cycleFound5 : RawResult :=
  ⟨some false, none, none, some 5, some 0, some true, none, none⟩

/-- Cycle 2 of the spec example: 0 found, 5 installed, changed. -/
def cycleInstalled5 : RawResult :=
  ⟨some true, none, none, some 0, some 5, some false, none, none⟩

/-- An all-quiet cycle: no counts, no reboot, not changed. -/
def cycleZero : RawResult :=
  ⟨some false, none, none, some 0, some 0, some false, none, none⟩

/-- A result whose `msg` is exactly the reboot sentinel while
`reboot_required` is `False`, with `found_update_count = 1` so the loop
body runs. -/
def resSentinelOnly : RawResult :=
  ⟨some false, none, none, some 1, some 0, some false, none,
    some sentinelMsg⟩

/-- A failed worker result (with `found_update_count = 1` so the loop
body runs). -/
def failedCycle : RawResult :=
  ⟨some false, none, none, some 1, some 0, some false, some true,
    some "update failure"⟩

/-- The loop output of the three-cycle example run (`cycleFound5` first,
then `cycleInstalled5` and `cycleZero`, one successful reboot). -/
def exampleOut : LoopOut :=
  ⟨cycleZero, ⟨true, [], [], 5, 5⟩, [cycleInstalled5, cycleZero], 1⟩

/-! ## Theorems -/

/-- C9: on every exit path of the busy probe inside `_reboot_server` -
normal completion, probe failure, or a thrown exception, all represented
by the swallowed `probe` outcome - the caller's prior
`become`/`become_method`/`become_user` are restored exactly, and no other
field of the play context is altered: the resulting context equals the
original one. -/
theorem c9_busy_probe_restores_context (ctx : PlayContext)
    (probe : Except String String) : busyProbe ctx probe = ctx := by
  cases ctx
  unfold busyProbe
  dsimp only
  split <;> split <;> rfl

/-- C1 counterexample: a cycle result whose `msg` is exactly the reboot
sentinel but whose `reboot_required` is `False` does not trigger a
reboot.  The run is given an empty list of reboot outcomes: had
`_reboot_server` been invoked, the model would have stopped with
`"model: reboot outcome exhausted"`; instead the loop completes normally
with `rebootsRun = 0`. -/
theorem c1_counterexample :
    runLoop false resSentinelOnly (initAgg resSentinelOnly false) []
        [cycleZero] =
      .ok ⟨cycleZero, ⟨false, [], [], 1, 0⟩, [cycleZero], 0⟩ := by
  rfl

/-- C1 (amended): in lines 214-233 a reboot is triggered exactly when
`result.get('reboot_required', False)` is truthy; the sentinel message
alone never triggers a reboot - it only selects the reason text used in
the failure message of a triggered reboot that fails.  When the flag is
false the reboot step leaves the aggregate state and the pending reboot
outcomes untouched; when it is true the next reboot outcome is consumed
and `changed` is forced to true. -/
theorem c1_amended_reboot_iff_flag (r : RawResult) (st : AggState)
    (o : Except String Unit) (rest : List (Except String Unit)) :
    (r.reboot_required.getD false = false →
      stepReboot r st (o :: rest) = .ok (.inr (st, o :: rest, 0)))
    ∧ (r.reboot_required.getD false = true → o = .ok () →
      stepReboot r st (o :: rest) =
        .ok (.inr ({ st with changed := true }, rest, 1))) := by
  constructor
  · intro h
    simp [stepReboot, h]
  · intro h ho
    subst ho
    simp [stepReboot, h]

/-- Witness for `c1_amended_reboot_iff_flag`: the sentinel-only result
(flag false) leaves the reboot outcomes untouched, and a flag-true
result consumes one. -/
theorem c1_amended_witness :
    resSentinelOnly.reboot_required.getD false = false ∧
    stepReboot resSentinelOnly (initAgg resSentinelOnly false) [.ok ()] =
      .ok (.inr (initAgg resSentinelOnly false, [.ok ()], 0)) ∧
    cycleFound5.reboot_required.getD false = true ∧
    stepReboot cycleFound5 (initAgg cycleFound5 false) [.ok ()] =
      .ok (.inr ({ initAgg cycleFound5 false with changed := true },
        [], 1)) :=
  ⟨rfl,
   (c1_amended_reboot_iff_flag resSentinelOnly
     (initAgg resSentinelOnly false) (.ok ()) []).1 rfl,
   rfl,
   (c1_amended_reboot_iff_flag cycleFound5
     (initAgg cycleFound5 false) (.ok ()) []).2 rfl rfl⟩

/-- C2 counterexample: with exactly the two cycles of the claim - cycle 1
`{found: 5, installed: 0, reboot_required: true}`, a succeeding reboot,
cycle 2 `{found: 0, installed: 5, reboot_required: false, changed:
true}` - the loop does NOT terminate after cycle 2: cycle 2 has
`installed_update_count = 5 > 0`, so the while condition is still true
and a third `_run_win_updates` call is attempted (the model, supplied
with only these two worker results, stops on the attempted third
call). -/
theorem c2_counterexample :
    runUpdates cycleFound5 [cycleInstalled5] [.ok ()] true "installed"
        false 0 =
      .error "model: worker result exhausted" := by
  rfl

/-- C2 (amended): after the two cycles of the claim the while condition
is still true (`installed_update_count = 5 > 0`), so a third cycle runs;
when that third cycle reports no counts and no reboot the loop then
terminates, with aggregate `found_update_count = 5`,
`installed_update_count = 5`, `changed = true`.  The trace confirms the
loop consumed both cycle 2 and the third cycle and ran exactly one
reboot. -/
theorem c2_amended_third_cycle :
    runLoop false cycleFound5 (initAgg cycleFound5 false) [.ok ()]
        [cycleInstalled5, cycleZero] =
      .ok ⟨cycleZero, ⟨true, [], [], 5, 5⟩,
        [cycleInstalled5, cycleZero], 1⟩
    ∧ runUpdates cycleFound5 [cycleInstalled5, cycleZero] [.ok ()] true
        "installed" false 0 =
      .ok ⟨some true, some [], some [], some 5, some 5, some false,
        none, none⟩ := by
  exact ⟨rfl, rfl⟩

/-- C6 counterexample: a first worker result carrying only `changed`
(every optional field absent) makes the run fail with a `KeyError` on
`installed_update_count`: the while condition (lines 199-201) reads the
counts and `reboot_required` by direct subscript, not with defaults. -/
theorem c6_counterexample :
    runUpdates resMissingCounts [] [] true "installed" false 0 =
      .error "KeyError: installed_update_count" := by
  rfl

/-- C6 (amended): the aggregate seeding and the per-cycle merge do
default absent fields (`updates`/`filtered_updates` to empty mappings,
counts to 0), and the loop body reads `failed`, `reboot_required` and
`msg` with defaults; but the loop-entry condition reads
`installed_update_count`, `found_update_count` and `reboot_required` by
direct subscript, so a worker result omitting a field the condition
actually reads raises a KeyError instead of being defaulted (short
circuit: a positive `installed_update_count` is read without touching
the other two). -/
theorem c6_amended_defaults_except_condition :
    (∀ r : RawResult, r.installed_update_count = none →
      loopCond r = .error "KeyError: installed_update_count")
    ∧ (∀ (r : RawResult) (i : Int), r.installed_update_count = some i →
      0 < i → loopCond r = .ok true)
    ∧ (∀ (r : RawResult) (ch : Bool), r.updates = none →
      r.filtered_updates = none → r.found_update_count = none →
      r.installed_update_count = none →
      initAgg r ch = ⟨ch, [], [], 0, 0⟩)
    ∧ (∀ (st : AggState) (r : RawResult) (ch : Bool), r.updates = none →
      r.filtered_updates = none → r.found_update_count = none →
      r.installed_update_count = none →
      mergeStep st r ch = { st with changed := st.changed || ch }) := by
  refine ⟨?_, ?_, ?_, ?_⟩
  · intro r h
    simp [loopCond, h]
  · intro r i h hi
    simp [loopCond, h, hi]
  · intro r ch h1 h2 h3 h4
    simp [initAgg, h1, h2, h3, h4]
  · intro st r ch h1 h2 h3 h4
    simp [mergeStep, merge_dict, dictUpdate, h1, h2, h3, h4]

/-- Witness for `c6_amended_defaults_except_condition` at the
all-absent worker result. -/
theorem c6_amended_witness :
    resMissingCounts.installed_update_count = none ∧
    loopCond resMissingCounts =
      .error "KeyError: installed_update_count" ∧
    cycleInstalled5.installed_update_count = some 5 ∧
    loopCond cycleInstalled5 = .ok true ∧
    initAgg resMissingCounts true = ⟨true, [], [], 0, 0⟩ ∧
    mergeStep ⟨false, [], [], 3, 2⟩ resMissingCounts true =
      ⟨false || true, [], [], 3, 2⟩ :=
  ⟨rfl,
   c6_amended_defaults_except_condition.1 resMissingCounts rfl,
   rfl,
   c6_amended_defaults_except_condition.2.1 cycleInstalled5 5 rfl
     (by decide),
   c6_amended_defaults_except_condition.2.2.1 resMissingCounts true rfl
     rfl rfl rfl,
   c6_amended_defaults_except_condition.2.2.2 ⟨false, [], [], 3, 2⟩
     resMissingCounts true rfl rfl rfl rfl⟩

/-- C3: the failure guard of lines 198-212.  (i) A failing cycle whose
predecessor also failed stops the loop at once, returning the current
(second) failure's dict unchanged - its `failed`/`msg` are surfaced;
(ii) a first failure is granted a grace cycle: the loop goes on to run
the next worker result; (iii) a non-failing current cycle resets the
tracking - the loop behaves identically whether or not the previous
cycle failed; (iv) the final write-back never touches `failed`/`msg`,
so a surfaced failure survives into the returned dict. -/
theorem c3_consecutive_failures :
    (∀ (r : RawResult) (st : AggState)
      (reboots : List (Except String Unit)) (workers : List RawResult),
      loopCond r = .ok true → r.failed.getD false = true →
      runLoop true r st reboots workers = .ok ⟨r, st, [], 0⟩)
    ∧ (∀ (r w : RawResult) (cw : Bool) (st : AggState)
      (reboots : List (Except String Unit)) (rest : List RawResult)
      (out : LoopOut),
      loopCond r = .ok true → r.failed.getD false = true →
      r.reboot_required.getD false = false → w.changed = some cw →
      runLoop true w (mergeStep st w cw) reboots rest = .ok out →
      runLoop false r st reboots (w :: rest) =
        .ok ⟨out.result, out.agg, w :: out.cycles, out.rebootsRun⟩)
    ∧ (∀ (w : RawResult) (st : AggState)
      (reboots : List (Except String Unit)) (workers : List RawResult),
      w.failed.getD false = false →
      runLoop true w st reboots workers =
        runLoop false w st reboots workers)
    ∧ (∀ (r : RawResult) (st : AggState),
      (writeBack r st).failed = r.failed ∧ (writeBack r st).msg = r.msg) := by
  refine ⟨?_, ?_, ?_, ?_⟩
  · intro r st reboots workers hcond hf
    conv_lhs => rw [runLoop]
    simp [hcond, hf]
  · intro r w cw st reboots rest out hcond hf hrb hw hrec
    conv_lhs => rw [runLoop]
    simp [hcond, hf, stepReboot, hrb, hw, hrec]
  · intro w st reboots workers hw
    conv_lhs => rw [runLoop]
    conv_rhs => rw [runLoop]
    simp [hw]
  · intro r st
    exact ⟨rfl, rfl⟩

/-- Witness for `c3_consecutive_failures` on concrete runs: a second
consecutive failure aborts with the failing dict surfaced; a first
failure is granted a grace cycle that runs the next worker result; a
non-failing cycle makes the previous-failure bit irrelevant. -/
theorem c3_witness :
    loopCond failedCycle = .ok true ∧
    failedCycle.failed.getD false = true ∧
    runLoop true failedCycle ⟨false, [], [], 1, 0⟩ [] [] =
      .ok ⟨failedCycle, ⟨false, [], [], 1, 0⟩, [], 0⟩ ∧
    runLoop false failedCycle ⟨false, [], [], 1, 0⟩ [] [cycleZero] =
      .ok ⟨cycleZero, ⟨false, [], [], 1, 0⟩, [cycleZero], 0⟩ ∧
    runLoop true cycleZero ⟨false, [], [], 1, 0⟩ [] [] =
      runLoop false cycleZero ⟨false, [], [], 1, 0⟩ [] [] ∧
    (writeBack failedCycle ⟨false, [], [], 1, 0⟩).failed =
      failedCycle.failed :=
  ⟨rfl, rfl,
   c3_consecutive_failures.1 failedCycle ⟨false, [], [], 1, 0⟩ [] []
     rfl rfl,
   c3_consecutive_failures.2.1 failedCycle cycleZero false
     ⟨false, [], [], 1, 0⟩ [] [] ⟨cycleZero, ⟨false, [], [], 1, 0⟩, [], 0⟩
     rfl rfl rfl rfl rfl,
   c3_consecutive_failures.2.2.1 cycleZero ⟨false, [], [], 1, 0⟩ [] []
     rfl,
   (c3_consecutive_failures.2.2.2 failedCycle ⟨false, [], [], 1, 0⟩).1⟩

/-- C7: reboot failure handling.  (i) If the `win_reboot` plugin reports
failure, `_reboot_server` raises its message; (ii) if the reboot
succeeds but `wait_for_connection` reports failure, `_reboot_server`
raises that message (the busy-probe outcome never matters); (iii) when a
triggered reboot raises, the loop stops at once with `failed = true` and
a message naming the reboot trigger (`rebootReason`: the sentinel text
when `msg` matched the sentinel, the finalise text otherwise), `changed`
forced true, and no further worker cycle is consumed
(`cycles = []`). -/
theorem c7_reboot_failure_aborts :
    (∀ (ctx : PlayContext) (rebootRes : PrimResult)
      (probe : Except String String) (waitRes : PrimResult) (m : String),
      rebootRes.failed.getD false = true → rebootRes.msg = some m →
      (reboot_server ctx rebootRes probe waitRes).1 = .error m)
    ∧ (∀ (ctx : PlayContext) (rebootRes : PrimResult)
      (probe : Except String String) (waitRes : PrimResult) (m : String),
      rebootRes.failed.getD false = false →
      waitRes.failed.getD false = true → waitRes.msg = some m →
      (reboot_server ctx rebootRes probe waitRes).1 = .error m)
    ∧ (∀ (prevErr : Bool) (r : RawResult) (st : AggState) (e : String)
      (rest : List (Except String Unit)) (workers : List RawResult),
      loopCond r = .ok true →
      (r.failed.getD false && prevErr) = false →
      r.reboot_required.getD false = true →
      runLoop prevErr r st (.error e :: rest) workers =
        .ok ⟨{ r with
            failed := some true,
            msg := some (rebootFailMsg (rebootReason r) e) },
          { st with changed := true }, [], 1⟩) := by
  refine ⟨?_, ?_, ?_⟩
  · intro ctx rebootRes probe waitRes m hf hm
    simp [reboot_server, hf, hm]
  · intro ctx rebootRes probe waitRes m hrf hwf hm
    simp [reboot_server, hrf, hwf, hm]
  · intro prevErr r st e rest workers hcond hf hrb
    conv_lhs => rw [runLoop]
    simp [hcond, hf, stepReboot, hrb]

/-- Witness for `c7_reboot_failure_aborts`: a failed reboot primitive, a
failed connectivity wait, and a concrete aborted loop run. -/
theorem c7_witness :
    (reboot_server ⟨none, "winrm", none, false, "user"⟩
        ⟨some true, some "reboot timed out"⟩ (.ok "False")
        ⟨none, none⟩).1 = .error "reboot timed out" ∧
    (reboot_server ⟨none, "winrm", none, false, "user"⟩
        ⟨some false, none⟩ (.error "conn lost")
        ⟨some true, some "host unreachable"⟩).1 =
      .error "host unreachable" ∧
    runLoop false cycleFound5 (initAgg cycleFound5 false)
        [.error "reboot timed out"] [cycleInstalled5] =
      .ok ⟨{ cycleFound5 with
          failed := some true,
          msg := some (rebootFailMsg (rebootReason cycleFound5)
            "reboot timed out") },
        { initAgg cycleFound5 false with changed := true }, [], 1⟩ :=
  ⟨c7_reboot_failure_aborts.1 ⟨none, "winrm", none, false, "user"⟩
     ⟨some true, some "reboot timed out"⟩ (.ok "False") ⟨none, none⟩
     "reboot timed out" rfl rfl,
   c7_reboot_failure_aborts.2.1 ⟨none, "winrm", none, false, "user"⟩
     ⟨some false, none⟩ (.error "conn lost")
     ⟨some true, some "host unreachable"⟩ "host unreachable" rfl rfl rfl,
   c7_reboot_failure_aborts.2.2 false cycleFound5
     (initAgg cycleFound5 false) "reboot timed out" [] [cycleInstalled5]
     rfl rfl rfl⟩


/-- Inversion for `stepReboot`: the break branch (`inl`) is only taken
with `changed` forced true in the aggregate. -/
theorem stepReboot_inl_state {r : RawResult} {st : AggState}
    {rb : List (Except String Unit)} {fr : RawResult} {fs : AggState}
    (h : stepReboot r st rb = .ok (.inl (fr, fs))) :
    fs = { st with changed := true } := by
  cases hrb : r.reboot_required.getD false with
  | false => simp [stepReboot, hrb] at h
  | true =>
    match rb with
    | [] => simp [stepReboot, hrb] at h
    | .ok u :: rest => simp [stepReboot, hrb] at h
    | .error e :: rest =>
      simp [stepReboot, hrb] at h
      exact h.2.symm

/-- Inversion for `stepReboot`: the continue branch (`inr`) either ran no
reboot and left the aggregate untouched, or ran exactly one reboot and
forced `changed` true. -/
theorem stepReboot_inr_state {r : RawResult} {st st1 : AggState}
    {rb rb1 : List (Except String Unit)} {n : Nat}
    (h : stepReboot r st rb = .ok (.inr (st1, rb1, n))) :
    (st1 = st ∧ n = 0) ∨ (st1 = { st with changed := true } ∧ n = 1) := by
  cases hrb : r.reboot_required.getD false with
  | false =>
    simp [stepReboot, hrb] at h
    exact Or.inl ⟨h.1.symm, h.2.2.symm⟩
  | true =>
    match rb with
    | [] => simp [stepReboot, hrb] at h
    | .error e :: rest => simp [stepReboot, hrb] at h
    | .ok u :: rest =>
      simp [stepReboot, hrb] at h
      exact Or.inr ⟨h.1.symm, h.2.2.symm⟩

/-- Characterisation of the aggregate state over any completed loop run:
`changed` is the disjunction of the incoming `changed`, the `changed`
flags of the consumed cycles, and whether any reboot ran; the two counts
are the incoming counts plus the sums over the consumed cycles. -/

theorem runLoop_agg : ∀ (workers : List RawResult) (prevErr : Bool)
    (r : RawResult) (st : AggState) (reboots : List (Except String Unit))
    (out : LoopOut), runLoop prevErr r st reboots workers = .ok out →
    out.agg.changed =
      (st.changed || out.cycles.any (fun w => w.changed == some true) ||
        !(out.rebootsRun == 0))
    ∧ out.agg.found =
      st.found + (out.cycles.map (fun w => w.found_update_count.getD 0)).sum
    ∧ out.agg.installed =
      st.installed +
        (out.cycles.map (fun w => w.installed_update_count.getD 0)).sum := by
  intro workers
  induction workers with
  | nil =>
    intro prevErr r st reboots out h
    rw [runLoop] at h
    rcases hc : loopCond r with e | b
    · rw [hc] at h
      simp at h
    · rw [hc] at h
      simp only at h
      cases b with
      | false =>
        simp only [Except.ok.injEq] at h
        subst h
        simp
      | true =>
        cases hfp : (r.failed.getD false && prevErr) <;> rw [hfp] at h
        · simp only [Bool.false_eq_true, if_false] at h
          rcases hs : stepReboot r st reboots with e | s
          · rw [hs] at h
            simp at h
          · rw [hs] at h
            rcases s with ⟨fr, fs⟩ | ⟨st1, rb1, n⟩ <;> simp only at h
            · simp only [Except.ok.injEq] at h
              subst h
              simp [stepReboot_inl_state hs]
            · simp at h
        · simp only [eq_self_iff_true, if_true, Except.ok.injEq] at h
          subst h
          simp
  | cons w rest ih =>
    intro prevErr r st reboots out h
    rw [runLoop] at h
    rcases hc : loopCond r with e | b
    · rw [hc] at h
      simp at h
    · rw [hc] at h
      simp only at h
      cases b with
      | false =>
        simp only [Except.ok.injEq] at h
        subst h
        simp
      | true =>
        cases hfp : (r.failed.getD false && prevErr) <;> rw [hfp] at h
        · simp only [Bool.false_eq_true, if_false] at h
          rcases hs : stepReboot r st reboots with e | s
          · rw [hs] at h
            simp at h
          · rw [hs] at h
            rcases s with ⟨fr, fs⟩ | ⟨st1, rb1, n⟩ <;> simp only at h
            · simp only [Except.ok.injEq] at h
              subst h
              simp [stepReboot_inl_state hs]
            · rcases hch : w.changed with _ | ch
              · rw [hch] at h
                simp at h
              · rw [hch] at h
                simp only at h
                rcases hrec : runLoop (r.failed.getD false) w
                    (mergeStep st1 w ch) rb1 rest with e | out'
                · rw [hrec] at h
                  simp at h
                · rw [hrec] at h
                  simp only [Except.ok.injEq] at h
                  subst h
                  obtain ⟨ih1, ih2, ih3⟩ := ih (r.failed.getD false) w
                    (mergeStep st1 w ch) rb1 out' hrec
                  rcases stepReboot_inr_state hs with ⟨rfl, rfl⟩ | ⟨rfl, rfl⟩
                  · refine ⟨?_, ?_, ?_⟩
                    · simp only [ih1, mergeStep]
                      simp [hch, Bool.or_assoc]
                    · simp only [ih2, mergeStep]
                      simp [Int.add_assoc]
                    · simp only [ih3, mergeStep]
                      simp [Int.add_assoc]
                  · refine ⟨?_, ?_, ?_⟩
                    · simp only [ih1, mergeStep]
                      simp [hch, Nat.one_add]
                    · simp only [ih2, mergeStep]
                      simp [Int.add_assoc]
                    · simp only [ih3, mergeStep]
                      simp [Int.add_assoc]
        · simp only [eq_self_iff_true, if_true, Except.ok.injEq] at h
          subst h
          simp

/-- C4: for every completed loop run seeded from the first cycle's
`changed` value `ch`, the aggregate `changed` is true if and only if the
first cycle reported `changed = true`, or some later consumed cycle did,
or a reboot ran; and `changed` is monotonic: from any mid-loop state
whose `changed` is already true, every completed continuation still ends
with `changed = true` - no later cycle or step resets it. -/
theorem c4_changed_iff_and_monotonic :
    (∀ (first : RawResult) (ch : Bool)
      (reboots : List (Except String Unit)) (workers : List RawResult)
      (out : LoopOut),
      runLoop false first (initAgg first ch) reboots workers = .ok out →
      (out.agg.changed = true ↔
        ch = true ∨ (∃ w ∈ out.cycles, w.changed = some true) ∨
          0 < out.rebootsRun))
    ∧ (∀ (prevErr : Bool) (r : RawResult) (st : AggState)
      (reboots : List (Except String Unit)) (workers : List RawResult)
      (out : LoopOut),
      runLoop prevErr r st reboots workers = .ok out →
      st.changed = true → out.agg.changed = true) := by
  constructor
  · intro first ch reboots workers out h
    have h1 := (runLoop_agg workers false first (initAgg first ch)
      reboots out h).1
    rw [h1]
    simp [initAgg, List.any_eq_true, Nat.pos_iff_ne_zero]
    exact or_assoc
  · intro prevErr r st reboots workers out h hst
    have h1 := (runLoop_agg workers prevErr r st reboots out h).1
    rw [h1, hst]
    simp

/-- Witness for `c4_changed_iff_and_monotonic` on the three-cycle
example run and on a run started with `changed` already true. -/
theorem c4_witness :
    (exampleOut.agg.changed = true ↔
      false = true ∨
        (∃ w ∈ exampleOut.cycles, w.changed = some true) ∨
        0 < exampleOut.rebootsRun) ∧
    (LoopOut.mk cycleZero ⟨true, [], [], 0, 0⟩ [] 0).agg.changed = true :=
  ⟨c4_changed_iff_and_monotonic.1 cycleFound5 false [.ok ()]
     [cycleInstalled5, cycleZero] exampleOut rfl,
   c4_changed_iff_and_monotonic.2 false cycleZero ⟨true, [], [], 0, 0⟩
     [] [] ⟨cycleZero, ⟨true, [], [], 0, 0⟩, [], 0⟩ rfl rfl⟩

/-- C8: for every completed loop run seeded from the first worker result,
the aggregate `found_update_count` and `installed_update_count` equal the
first cycle's values (defaulted to 0 when absent) plus the sums of the
corresponding defaulted values over all cycles consumed by the loop, and
the final write-back returns exactly these aggregates. -/
theorem c8_counts_are_sums (first : RawResult) (ch : Bool)
    (reboots : List (Except String Unit)) (workers : List RawResult)
    (out : LoopOut)
    (h : runLoop false first (initAgg first ch) reboots workers = .ok out) :
    out.agg.found = first.found_update_count.getD 0 +
      (out.cycles.map (fun w => w.found_update_count.getD 0)).sum
    ∧ out.agg.installed = first.installed_update_count.getD 0 +
      (out.cycles.map (fun w => w.installed_update_count.getD 0)).sum
    ∧ (writeBack out.result out.agg).found_update_count =
        some out.agg.found
    ∧ (writeBack out.result out.agg).installed_update_count =
        some out.agg.installed := by
  obtain ⟨h1, h2, h3⟩ := runLoop_agg workers false first (initAgg first ch)
    reboots out h
  exact ⟨h2, h3, rfl, rfl⟩

/-- Witness for `c8_counts_are_sums` on the three-cycle example run:
`5 + (0 + 0)` found, `0 + (5 + 0)` installed. -/
theorem c8_witness :
    exampleOut.agg.found = cycleFound5.found_update_count.getD 0 +
      (exampleOut.cycles.map (fun w => w.found_update_count.getD 0)).sum ∧
    exampleOut.agg.installed =
      cycleFound5.installed_update_count.getD 0 +
        (exampleOut.cycles.map
          (fun w => w.installed_update_count.getD 0)).sum ∧
    (writeBack exampleOut.result exampleOut.agg).found_update_count =
      some exampleOut.agg.found ∧
    (writeBack exampleOut.result exampleOut.agg).installed_update_count =
      some exampleOut.agg.installed :=
  c8_counts_are_sums cycleFound5 false [.ok ()]
    [cycleInstalled5, cycleZero] exampleOut rfl

/-! ### Association-list (Python dict) lemmas -/

theorem dictGet_cons {V : Type} (p : String × V) (d : List (String × V))
    (q : String) :
    dictGet (p :: d) q = if p.1 = q then some p.2 else dictGet d q := by
  by_cases h : p.1 = q <;> simp [dictGet, List.find?_cons, h]

theorem dictGet_append {V : Type} (d1 d2 : List (String × V)) (q : String) :
    dictGet (d1 ++ d2) q = (dictGet d1 q).or (dictGet d2 q) := by
  induction d1 with
  | nil => simp [dictGet]
  | cons p d1 ih =>
    by_cases h : p.1 = q <;>
      simp [List.cons_append, dictGet_cons, h, ih]

theorem dictGet_eq_none_of_not_mem {V : Type} {d : List (String × V)}
    {q : String} (h : q ∉ d.map Prod.fst) : dictGet d q = none := by
  induction d with
  | nil => rfl
  | cons p d ih =>
    simp only [List.map_cons, List.mem_cons, not_or] at h
    rw [dictGet_cons, if_neg (fun hh => h.1 hh.symm)]
    exact ih h.2

theorem mem_keys_iff_isSome {V : Type} (d : List (String × V)) (q : String) :
    q ∈ d.map Prod.fst ↔ (dictGet d q).isSome := by
  induction d with
  | nil => simp [dictGet]
  | cons p d ih =>
    by_cases h : p.1 = q
    · simp [dictGet_cons, h, ih]
    · have h' : ¬ q = p.1 := fun hh => h hh.symm
      simp [dictGet_cons, h, h', ih]

theorem dictGet_mapReplace {V : Type} (d : List (String × V)) (k : String)
    (v : V) (q : String) :
    dictGet (d.map (fun p => if p.1 = k then (k, v) else p)) q =
      if q = k then (if (dictGet d k).isSome then some v else none)
      else dictGet d q := by
  induction d with
  | nil => by_cases hq : q = k <;> simp [dictGet, hq]
  | cons p d ih =>
    by_cases hpk : p.1 = k
    · by_cases hqk : q = k
      · simp [List.map_cons, hpk, dictGet_cons, hqk]
      · have hkq : ¬ k = q := fun hh => hqk hh.symm
        simp [List.map_cons, hpk, dictGet_cons, hqk, hkq, ih]
    · by_cases hpq : p.1 = q
      · have hqk : ¬ q = k := fun hh => hpk (hpq.trans hh)
        simp [List.map_cons, hpk, dictGet_cons, hpq, hqk]
      · simp [List.map_cons, hpk, dictGet_cons, hpq, ih]

theorem dictGet_dictSet {V : Type} (d : List (String × V)) (k : String)
    (v : V) (q : String) :
    dictGet (dictSet d k v) q = if q = k then some v else dictGet d q := by
  unfold dictSet
  cases hsome : (dictGet d k).isSome with
  | true =>
    rw [if_pos rfl, dictGet_mapReplace, hsome]
    simp
  | false =>
    rw [if_neg Bool.false_ne_true, dictGet_append]
    by_cases hq : q = k
    · subst hq
      have hnm : q ∉ d.map Prod.fst := fun hmem => by
        rw [mem_keys_iff_isSome d q, hsome] at hmem
        exact Bool.false_ne_true hmem
      rw [dictGet_eq_none_of_not_mem hnm]
      simp [dictGet]
    · have hkq : ¬ k = q := fun hh => hq hh.symm
      have h1 : dictGet [(k, v)] q = none := by simp [dictGet, hkq]
      rw [h1, Option.or_none, if_neg hq]

theorem dictGet_dictUpdate {V : Type} (new : List (String × V))
    (hb : (new.map Prod.fst).Nodup) (d : List (String × V)) (q : String) :
    dictGet (dictUpdate d new) q = (dictGet new q).or (dictGet d q) := by
  induction new generalizing d with
  | nil => simp [dictUpdate, dictGet]
  | cons p new ih =>
    simp only [List.map_cons, List.nodup_cons] at hb
    have step : dictUpdate d (p :: new) =
        dictUpdate (dictSet d p.1 p.2) new := rfl
    rw [step, ih hb.2, dictGet_dictSet, dictGet_cons]
    by_cases hq : q = p.1
    · subst hq
      rw [dictGet_eq_none_of_not_mem hb.1]
      simp
    · have hpq : ¬ p.1 = q := fun hh => hq hh.symm
      rw [if_neg hq, if_neg hpq]


/-- C5: `_merge_dict` is last-write-wins - for any two mappings (the
later one with the unique keys a Python dict guarantees), every key of
the later mapping maps to the later mapping's value, every key only in
the earlier mapping keeps its value (`Option.or` of the two lookups,
later first), and the key set of the result is the union of the two key
sets.  The embedding is pure, so the inputs are not mutated - the model
of `original.copy(); .update(new)` builds a new list. -/
theorem c5_merge_last_write_wins {V : Type} (a b : List (String × V))
    (hb : (b.map Prod.fst).Nodup) :
    (∀ k, dictGet (merge_dict a b) k = (dictGet b k).or (dictGet a k))
    ∧ (∀ k, k ∈ (merge_dict a b).map Prod.fst ↔
        k ∈ a.map Prod.fst ∨ k ∈ b.map Prod.fst) := by
  have hget : ∀ k,
      dictGet (merge_dict a b) k = (dictGet b k).or (dictGet a k) :=
    fun k => dictGet_dictUpdate b hb a k
  refine ⟨hget, fun k => ?_⟩
  rw [mem_keys_iff_isSome, hget k, mem_keys_iff_isSome,
    mem_keys_iff_isSome]
  cases dictGet b k <;> cases dictGet a k <;> simp

theorem pySplitOn_ne_nil (sep : Char) (s : PyStr) :
    pySplitOn sep s ≠ [] := by
  induction s with
  | nil => simp [pySplitOn]
  | cons c rest ih =>
    cases h : pySplitOn sep rest with
    | nil => exact absurd h ih
    | cons g gs =>
      rw [pySplitOn, h]
      by_cases hc : c = sep <;> simp [hc]

theorem pySplitOn_sepless (sep : Char) (s : PyStr) (h : sep ∉ s) :
    pySplitOn sep s = [s] := by
  induction s with
  | nil => rfl
  | cons c rest ih =>
    simp only [List.mem_cons, not_or] at h
    rw [pySplitOn, ih h.2]
    simp [show ¬ c = sep from fun hh => h.1 hh.symm]

theorem pySplitOn_append (sep : Char) (a rest : PyStr) (h : sep ∉ a) :
    pySplitOn sep (a ++ sep :: rest) = a :: pySplitOn sep rest := by
  induction a with
  | nil =>
    cases hr : pySplitOn sep rest with
    | nil => exact absurd hr (pySplitOn_ne_nil sep rest)
    | cons g gs =>
      rw [List.nil_append, pySplitOn, hr]
      simp
  | cons c a ih =>
    simp only [List.mem_cons, not_or] at h
    rw [List.cons_append, pySplitOn, ih h.2]
    simp [show ¬ c = sep from fun hh => h.1 hh.symm]

theorem pySplitOn_joinComma (l : List PyStr) (hne : l ≠ [])
    (hsep : ∀ x ∈ l, (',' : Char) ∉ x) :
    pySplitOn ',' (joinComma l) = l := by
  induction l with
  | nil => exact absurd rfl hne
  | cons x l ih =>
    cases l with
    | nil => exact pySplitOn_sepless ',' x (hsep x (by simp))
    | cons y l2 =>
      rw [joinComma, pySplitOn_append ',' x (joinComma (y :: l2))
        (hsep x (by simp))]
      rw [ih (by simp) (fun z hz => hsep z (by simp [hz]))]

/-- No valid category name contains a comma. -/
theorem validCategory_comma_free :
    ∀ x ∈ validCategoryChars, (',' : Char) ∉ x := by decide

/-- Valid category names carry no surrounding whitespace, so
`str.strip()` leaves them unchanged. -/
theorem validCategory_strip_id :
    ∀ x ∈ validCategoryChars, pyStrip x = x := by decide


/-- Witness for `c5_merge_last_write_wins` on two concrete mappings with
the overlapping key `"k2"`. -/
theorem c5_witness :
    (([("k2", 5), ("k3", 7)] : List (String × Nat)).map Prod.fst).Nodup ∧
    dictGet (merge_dict [("k1", 1), ("k2", 2)] [("k2", 5), ("k3", 7)])
        "k2" =
      (dictGet [("k2", 5), ("k3", 7)] "k2").or
        (dictGet [("k1", 1), ("k2", 2)] "k2") ∧
    ("k1" ∈ (merge_dict [("k1", 1), ("k2", 2)]
        [("k2", 5), ("k3", 7)]).map Prod.fst ↔
      "k1" ∈ ([("k1", 1), ("k2", 2)] : List (String × Nat)).map
          Prod.fst ∨
        "k1" ∈ ([("k2", 5), ("k3", 7)] : List (String × Nat)).map
          Prod.fst) :=
  ⟨by decide,
   (c5_merge_last_write_wins [("k1", 1), ("k2", 2)] [("k2", 5), ("k3", 7)]
     (by decide)).1 "k2",
   (c5_merge_last_write_wins [("k1", 1), ("k2", 2)] [("k2", 5), ("k3", 7)]
     (by decide)).2 "k1"⟩

/-- C10: a `category_names` supplied as a YAML string is split on commas
with surrounding whitespace stripped from each piece before validation
(lines 144-145), so the comma-separated string formed from any nonempty
list of valid category names is processed into exactly that list and is
accepted by `_validate_categories` exactly as the list itself would
be. -/
theorem c10_string_category_names (l : List PyStr) (hne : l ≠ [])
    (hval : ∀ x ∈ l, x ∈ validCategoryChars) :
    category_names_arg (.inl (joinComma l)) = category_names_arg (.inr l)
    ∧ validate_categories (category_names_arg (.inl (joinComma l))) =
        .ok ()
    ∧ validate_categories (category_names_arg (.inr l)) = .ok () := by
  have hsep : ∀ x ∈ l, (',' : Char) ∉ x :=
    fun x hx => validCategory_comma_free x (hval x hx)
  have hsplit : pySplitOn ',' (joinComma l) = l :=
    pySplitOn_joinComma l hne hsep
  have heq : category_names_arg (.inl (joinComma l)) = l := by
    show (pySplitOn ',' (joinComma l)).map pyStrip = l
    rw [hsplit]
    have hid : ∀ x ∈ l, pyStrip x = x :=
      fun x hx => validCategory_strip_id x (hval x hx)
    calc l.map pyStrip = l.map id := List.map_congr_left hid
      _ = l := List.map_id l
  have hfind : l.find? (fun n => decide (n ∉ validCategoryChars)) =
      none :=
    List.find?_eq_none.mpr (fun x hx => by simp [hval x hx])
  have hok : validate_categories l = .ok () := by
    unfold validate_categories
    rw [hfind]
  exact ⟨heq, by rw [heq]; exact hok, hok⟩

/-- Witness for `c10_string_category_names` at the two-name list
`CriticalUpdates, SecurityUpdates`. -/
theorem c10_witness :
    ["CriticalUpdates".toList, "SecurityUpdates".toList] ≠
      ([] : List PyStr) ∧
    category_names_arg (.inl (joinComma
        ["CriticalUpdates".toList, "SecurityUpdates".toList])) =
      category_names_arg (.inr
        ["CriticalUpdates".toList, "SecurityUpdates".toList]) ∧
    validate_categories (category_names_arg (.inl (joinComma
        ["CriticalUpdates".toList, "SecurityUpdates".toList]))) =
      .ok () :=
  ⟨by decide,
   (c10_string_category_names
     ["CriticalUpdates".toList, "SecurityUpdates".toList]
     (by decide) (by decide)).1,
   (c10_string_category_names
     ["CriticalUpdates".toList, "SecurityUpdates".toList]
     (by decide) (by decide)).2.1⟩


end WinUpdates
